import Mathlib

/-!
Shallow embedding of the telegram bot client (src/telegram.go, src/model.go):
session state, the update-polling loop with its offset cursor, the kind-based
dispatch registry, the call invoker and the multipart body encoder. Go maps
are embedded as association lists; where Go iterates a map in unspecified
order, the iteration sequence is an explicit parameter.
-/

namespace Telegram

/-- User record (src/model.go). -/
structure User where
  id : Int
  firstName : String
  username : String
  isBot : Bool
deriving DecidableEq, Repr

/-- Value of one field of an outbound request, as classified by the switch in
encodeMultipartBody (src/telegram.go:186-208): an io.Reader byte stream, a
plain string, or any other value together with the outcome of json.Marshal
on it (none models a marshal failure). -/
inductive FieldValue
  | reader (content : String)
  | str (s : String)
  | other (marshaled : Option String)
deriving DecidableEq, Repr

/-- One struct field as seen by toMap (src/telegram.go:222-232): Go field
name, the json struct tag (Tag.Get on json; empty when absent), value. -/
structure StructField where
  name : String
  jsonTag : String
  value : FieldValue
deriving DecidableEq, Repr

/-- A non-nil Go value passed as request data, by reflect.Kind as far as
toMap (src/telegram.go:213-241) distinguishes them: struct, map with string
keys, pointer (a none pointee models a nil pointer, whose Elem is the
invalid Value), and every other kind collapsed to its kind name. -/
inductive GoConcrete
  | structV (fields : List StructField)
  | mapV (entries : List (String × FieldValue))
  | ptrV (pointee : Option GoConcrete)
  | scalar (kind : String)

/-- Key under which a struct field is stored: the first comma-separated
component of the json tag when nonempty, else the field name
(src/telegram.go:225-230). -/
def fieldKey (f : StructField) : String :=
  if f.jsonTag != "" then
    let jsonKey := (f.jsonTag.splitOn ",").headD ""
    if jsonKey != "" then jsonKey else f.name
  else f.name

/-- Go map assignment: overwrite an existing key, else append. -/
def mapInsert (m : List (String × FieldValue)) (k : String) (v : FieldValue) :
    List (String × FieldValue) :=
  if m.any (fun kv => kv.1 == k) then
    m.map (fun kv => if kv.1 == k then (k, v) else kv)
  else m ++ [(k, v)]

def structEntries (fields : List StructField) : List (String × FieldValue) :=
  fields.foldl (fun m f => mapInsert m (fieldKey f) f.value) []

def mapEntries (entries : List (String × FieldValue)) : List (String × FieldValue) :=
  entries.foldl (fun m kv => mapInsert m kv.1 kv.2) []

/-- The single v = v.Elem() dereference at src/telegram.go:218-220; none is
the invalid Value obtained from Elem of a nil pointer. -/
def derefOnce : GoConcrete → Option GoConcrete
  | .ptrV p => p
  | c => some c

def kindName : GoConcrete → String
  | .structV _ => "struct"
  | .mapV _ => "map"
  | .ptrV _ => "ptr"
  | .scalar k => k

/-- toMap (src/telegram.go:213-241): nil data gives the empty map; one level
of pointer indirection is stripped; struct fields are keyed by json tag or
field name; map entries are copied; every other kind fails. -/
def toMap : Option GoConcrete → Except String (List (String × FieldValue))
  | none => .ok []
  | some c =>
    match derefOnce c with
    | none => .error "cannot toMap invalid"
    | some (.structV fields) => .ok (structEntries fields)
    | some (.mapV entries) => .ok (mapEntries entries)
    | some v => .error ("cannot toMap " ++ kindName v)

/-- One part of the multipart body: a file part created by CreateFormFile,
or a plain form field written by WriteField (src/telegram.go:186-208). -/
inductive Part
  | file (fieldname filename content : String)
  | field (name value : String)
deriving DecidableEq, Repr

/-- Encoded request body (src/telegram.go:180-211): an empty JSON body when
the field map is empty, else a multipart body (boundary abstracted). -/
inductive Body
  | emptyJSON
  | multipart (parts : List Part)

/-- The switch at src/telegram.go:187-208 for one field. -/
def partFor (k : String) : FieldValue → Except String Part
  | .reader content => .ok (.file k k content)
  | .str s => .ok (.field k s)
  | .other (some js) => .ok (.field k js)
  | .other none => .error "json: unsupported value"

def encodeParts : List (String × FieldValue) → Except String (List Part)
  | [] => .ok []
  | (k, v) :: rest =>
    match partFor k v with
    | .error e => .error e
    | .ok p =>
      match encodeParts rest with
      | .error e => .error e
      | .ok ps => .ok (p :: ps)

/-- encodeMultipartBody (src/telegram.go:180-211). -/
def encodeMultipartBody (data : List (String × FieldValue)) : Except String Body :=
  if data.isEmpty then .ok .emptyJSON
  else
    match encodeParts data with
    | .error e => .error e
    | .ok ps => .ok (.multipart ps)

def bodyContentType : Body → String
  | .emptyJSON => "application/json"
  | .multipart _ => "multipart/form-data"

def renderFieldValue : FieldValue → String
  | .reader _ => "(stream)"
  | .str s => "\"" ++ s ++ "\""
  | .other (some js) => js
  | .other none => "(unencodable)"

/-- Abstraction of the stdlib JSON encoder used by prettyPrintJSON
(src/telegram.go:171-178): the exact rendering of encoding/json is external
to the repository; the claims only need the APIError echo to be a fixed
function of the request value. -/
def renderConcrete : GoConcrete → String
  | .structV fields =>
      "\x7b" ++ String.intercalate ", "
        (fields.map (fun f => "\"" ++ f.name ++ "\": " ++ renderFieldValue f.value)) ++ "\x7d"
  | .mapV entries =>
      "\x7b" ++ String.intercalate ", "
        (entries.map (fun kv => "\"" ++ kv.1 ++ "\": " ++ renderFieldValue kv.2)) ++ "\x7d"
  | .ptrV none => "null"
  | .ptrV (some p) => renderConcrete p
  | .scalar k => "(" ++ k ++ ")"

/-- prettyPrintJSON (src/telegram.go:171-178); the trailing newline mirrors
Encoder.Encode. -/
def prettyPrintJSON : Option GoConcrete → String
  | none => "null\n"
  | some c => renderConcrete c ++ "\n"

/-- Parsed remote response envelope (src/telegram.go:36-41). -/
structure ResponseEnv where
  ok : Bool
  result : String
  errorCode : Int
  description : String
deriving DecidableEq, Repr

/-- What the HTTP round trip in Call (src/telegram.go:82-95) can yield: a
transport-level failure (Do or ReadAll), a body that fails to parse as the
response envelope, or a parsed envelope. -/
inductive RemoteBehavior
  | transportFail (msg : String)
  | badEnvelope (raw : String)
  | envelope (r : ResponseEnv)

/-- Errors Call can return, by layer (Go returns plain errors; the
constructors record which return site produced one and what it carries).
The api constructor carries the four values formatted by fmt.Errorf at
src/telegram.go:97. -/
inductive CallError
  | invalidData (msg : String)
  | encodeBody (msg : String)
  | transport (msg : String)
  | protocol (raw : String)
  | api (description : String) (errorCode : Int) (method : String) (echo : String)
  | decodeResult (raw : String)
deriving DecidableEq, Repr

/-- Result of Call plus whether the HTTP round trip was reached. -/
structure CallOutcome (ρ : Type) where
  result : Except CallError (Option ρ)
  httpSent : Bool

/-- Call (src/telegram.go:67-103). data is the request value, remote the
behaviour of the HTTP round trip, decodeRes the result target: none models
a nil result argument, some d the json.Unmarshal of the result fragment
into it. -/
def Call (method : String) (data : Option GoConcrete) (remote : RemoteBehavior)
    (decodeRes : Option (String → Option ρ)) : CallOutcome ρ :=
  match toMap data with
  | .error msg => ⟨.error (.invalidData msg), false⟩
  | .ok m =>
    match encodeMultipartBody m with
    | .error msg => ⟨.error (.encodeBody msg), false⟩
    | .ok _ =>
      match remote with
      | .transportFail msg => ⟨.error (.transport msg), true⟩
      | .badEnvelope raw => ⟨.error (.protocol raw), true⟩
      | .envelope r =>
        if !r.ok then
          ⟨.error (.api r.description r.errorCode method (prettyPrintJSON data)), true⟩
        else
          match decodeRes with
          | none => ⟨.ok none, true⟩
          | some d =>
            match d r.result with
            | none => ⟨.error (.decodeResult r.result), true⟩
            | some v => ⟨.ok (some v), true⟩

/-- Modelled from the spec: Send is declared in the API interface
(src/telegram.go:21) but not implemented under src; per spec sections 4.2
and 6 it is a generic pass-through of a request value to a send-class
remote operation via the Call Invoker, with no result target. The
operation name follows the scenario of spec section 8. -/
def Send (data : Option GoConcrete) (remote : RemoteBehavior) : Except CallError Unit :=
  match (Call "sendMessage" data remote (none : Option (String → Option Unit))).result with
  | .error _e => .error _e
  | .ok _ => .ok ()

def int64Max : Int := 9223372036854775807

def int64Min : Int := -9223372036854775808

/-- strconv.Atoi: optional sign, at least one digit, decimal value, error
outside the 64-bit int range. -/
def atoi (s : String) : Option Int :=
  let cs := s.toList
  let signDigits : Int × List Char :=
    match cs with
    | '-' :: rest => (-1, rest)
    | '+' :: rest => (1, rest)
    | _ => (1, cs)
  if signDigits.2.isEmpty then none
  else if signDigits.2.all (fun ch => ch.isDigit) then
    let n : Int :=
      signDigits.1 * ((signDigits.2.foldl (fun acc ch => acc * 10 + (ch.toNat - 48)) 0 : Nat) : Int)
    if int64Min ≤ n ∧ n ≤ int64Max then some n else none
  else none

/-- Inbound envelope: the map an update is decoded into
(src/telegram.go:106), as an association list from kind name to raw
fragment. -/
abbrev Envelope := List (String × String)

/-- Observable outcome of running a handler on a fragment: json.Unmarshal
into the handler input type fails, or the handler is called and returns a
non-nil error, or it is called and returns nil (src/telegram.go:132-139). -/
inductive HandlerResult
  | decodeFail (msg : String)
  | handlerErr (msg : String)
  | ok
deriving DecidableEq, Repr

/-- A handler value: the reflective shape data checked by Handle (NumIn,
NumOut, whether Out 0 is the error type) and its behaviour on a raw
fragment. -/
structure HandlerFunc where
  numIn : Nat
  numOut : Nat
  outIsError : Bool
  behavior : String → HandlerResult

/-- The c.handlers map, as an association list in registration order. -/
abbrev Registry := List (String × HandlerFunc)

/-- Errors of the update loop (plain errors in Go; constructors record the
return site): a failing getUpdates call, a delivery identifier rejected by
strconv.Atoi, a fragment the handler input type fails to decode, and a
handler returning an error. -/
inductive Err
  | fetch (e : CallError)
  | badUpdateId (raw : String)
  | protocol (kind msg : String)
  | handlerFail (kind msg : String)
deriving DecidableEq, Repr

/-- handleUpdate (src/telegram.go:126-143). iter is the sequence in which
range visits c.handlers (Go map iteration order is unspecified, so it is a
parameter; theorems relate it to the registry where needed). The second
component lists the kinds whose handler was actually called. -/
def handleUpdate (iter : Registry) (u : Envelope) : Except Err Unit × List String :=
  match iter with
  | [] => (.ok (), [])
  | (kind, h) :: rest =>
    match u.lookup kind with
    | none => handleUpdate rest u
    | some frag =>
      match h.behavior frag with
      | .decodeFail msg => (.error (.protocol kind msg), [])
      | .handlerErr msg => (.error (.handlerFail kind msg), [kind])
      | .ok => (.ok (), [kind])

/-- Connection (src/telegram.go:26-34), without the handlers map (kept as an
explicit Registry parameter, see handleUpdate). The timeout is in whole
seconds. -/
structure Connection where
  token : String
  timeout : Int
  debug : Bool
  user : User
  offset : Int
  stopped : Bool
deriving DecidableEq, Repr

/-- The update_id fragment parsed with strconv.Atoi
(src/telegram.go:114); a missing fragment is the nil RawMessage, whose
string conversion is empty. -/
def updId (u : Envelope) : Option Int := atoi ((u.lookup "update_id").getD "")

/-- The for-loop of handleUpdates (src/telegram.go:113-122): parse each
update_id, set the offset to id + 1, then dispatch; any error stops the
loop. The last component lists the envelopes that reached dispatch, in
order. -/
def processUpdates (iter : Registry) :
    Connection → List Envelope → Connection × Except Err Unit × List Envelope
  | c, [] => (c, .ok (), [])
  | c, u :: rest =>
    match updId u with
    | none => (c, .error (.badUpdateId ((u.lookup "update_id").getD "")), [])
    | some n =>
      match (handleUpdate iter u).1 with
      | .error e => ({ c with offset := n + 1 }, .error e, [u])
      | .ok _ =>
        match processUpdates iter { c with offset := n + 1 } rest with
        | (c2, r, tr) => (c2, r, u :: tr)

/-- handleUpdates (src/telegram.go:105-124). fetch abstracts the getUpdates
call made with the data map of current offset and timeout, together with
the decode of its result into envelopes. -/
def handleUpdates (iter : Registry) (fetch : Int → Int → Except CallError (List Envelope))
    (c : Connection) : Connection × Except Err Unit × List Envelope :=
  match fetch c.offset c.timeout with
  | .error e => (c, .error (.fetch e), [])
  | .ok batch => processUpdates iter c batch

/-- The polling loop of Start (src/telegram.go:57-61): while not stopped,
handleUpdates; any error returns. fuel bounds the number of iterations
observed (Stop flips the flag asynchronously). The last component lists the
fetch-updates operations issued. -/
def pollLoop (iter : Registry) (fetch : Int → Int → Except CallError (List Envelope)) :
    Nat → Connection → Connection × Except Err Unit × List String
  | 0, c => (c, .ok (), [])
  | fuel + 1, c =>
    if c.stopped then (c, .ok (), [])
    else
      match handleUpdates iter fetch c with
      | (c1, .error e, _) => (c1, .error e, ["getUpdates"])
      | (c1, .ok _, _) =>
        match pollLoop iter fetch fuel c1 with
        | (c2, r, ops) => (c2, r, "getUpdates" :: ops)

def defaultTimeoutSeconds : Int := 10

/-- Start (src/telegram.go:45-63): default the timeout, fetch the identity
with Call getMe (remote is the round-trip behaviour of that call, decodeUser the
json.Unmarshal of its result fragment into User), store it, then poll. The
last component lists the remote operations issued in order. The ok-none
branch is unreachable when a decode target is passed (see Call). -/
def start (iter : Registry) (remote : RemoteBehavior) (decodeUser : String → Option User)
    (fetch : Int → Int → Except CallError (List Envelope)) (fuel : Nat) (c : Connection) :
    Connection × Except Err Unit × List String :=
  let c0 := if c.timeout == 0 then { c with timeout := defaultTimeoutSeconds } else c
  match (Call "getMe" none remote (some decodeUser)).result with
  | .error e => (c0, .error (.fetch e), ["getMe"])
  | .ok none => (c0, .error (.fetch (.decodeResult "")), ["getMe"])
  | .ok (some user) =>
    match pollLoop iter fetch fuel { c0 with user := user } with
    | (c2, r, ops) => (c2, r, "getMe" :: ops)

/-- Stop (src/telegram.go:65). -/
def stop (c : Connection) : Connection := { c with stopped := true }

/-- The two panic conditions of Handle (src/telegram.go:147-152). -/
inductive ConfigError
  | badShape
  | duplicate (kind : String)
deriving DecidableEq, Repr

/-- The reflective shape check of Handle (src/telegram.go:147): exactly one
input, exactly one output, output type error. -/
def wellShaped (f : HandlerFunc) : Bool :=
  f.numIn == 1 && f.numOut == 1 && f.outIsError

/-- Handle (src/telegram.go:145-157). The Go code panics; the panics are
the ConfigurationError outcomes, and on an error the registry is
unchanged. -/
def Handle (r : Registry) (kind : String) (f : HandlerFunc) : Except ConfigError Registry :=
  if !wellShaped f then .error .badShape
  else if (r.lookup kind).isSome then .error (.duplicate kind)
  else .ok (r ++ [(kind, f)])

/-- Registries reachable from the empty registry by successful Handle
calls. -/
inductive Reachable : Registry → Prop
  | base : Reachable []
  | step {r : Registry} {kind : String} {f : HandlerFunc} {r2 : Registry} :
      Reachable r → Handle r kind f = .ok r2 → Reachable r2

/-- First kind of the iteration sequence whose fragment is present in the
envelope. -/
def firstPresent (iter : Registry) (u : Envelope) : Option String :=
  (iter.find? (fun kh => (u.lookup kh.1).isSome)).map (fun kh => kh.1)

def batchIds (batch : List Envelope) : List Int := batch.filterMap updId

/-- What the remote guarantees of a fetch-updates response (spec section 3:
delivery identifiers parse as integers, are strictly increasing, and are at
least the requested offset). -/
def ServerValid (fetch : Int → Int → Except CallError (List Envelope)) : Prop :=
  ∀ o t batch, fetch o t = .ok batch →
    (∀ u ∈ batch, ∃ n, updId u = some n ∧ o ≤ n) ∧
    (batchIds batch).Pairwise (fun a b => a < b)

/-- Request-value shapes claim C10 (as amended) says are rejected: the kind
after stripping one level of pointer indirection is neither struct nor
map. -/
def rejectedKind : GoConcrete → Prop
  | .scalar _ => True
  | .ptrV none => True
  | .ptrV (some (.scalar _)) => True
  | .ptrV (some (.ptrV _)) => True
  | _ => False

def isFilePart : Part → Bool
  | .file _ _ _ => true
  | .field _ _ => false

def isReaderEntry (kv : String × FieldValue) : Bool :=
  match kv.2 with
  | .reader _ => true
  | _ => false

def filenameMatchesField : Part → Bool
  | .file fn fname _ => fn == fname
  | .field _ _ => true

/-! Helper lemmas. -/

theorem handleUpdate_fired (iter : Registry) (u : Envelope) :
    ∀ k ∈ (handleUpdate iter u).2, firstPresent iter u = some k := by
  induction iter with
  | nil => simp [handleUpdate]
  | cons kh rest ih =>
    obtain ⟨kind, h⟩ := kh
    intro k hk
    simp only [handleUpdate] at hk
    split at hk
    next hl =>
      have hrest := ih k hk
      simp only [firstPresent] at hrest ⊢
      rw [List.find?_cons_of_neg]
      · exact hrest
      · simp [hl]
    next frag hl =>
      have hfp : firstPresent ((kind, h) :: rest) u = some kind := by
        simp only [firstPresent]
        rw [List.find?_cons_of_pos]
        · simp
        · simp [hl]
      split at hk
      next => simp at hk
      next => simp at hk; rw [hk]; exact hfp
      next => simp at hk; rw [hk]; exact hfp

theorem handleUpdate_fired_len (iter : Registry) (u : Envelope) :
    (handleUpdate iter u).2.length ≤ 1 := by
  induction iter with
  | nil => simp [handleUpdate]
  | cons kh rest ih =>
    obtain ⟨kind, h⟩ := kh
    simp only [handleUpdate]
    split
    · exact ih
    · split <;> simp

theorem Handle_ok_inv (r : Registry) (kind : String) (f : HandlerFunc) (r2 : Registry)
    (h : Handle r kind f = .ok r2) :
    wellShaped f = true ∧ r2 = r ++ [(kind, f)] := by
  simp only [Handle] at h
  cases hw : wellShaped f with
  | false => rw [hw] at h; simp at h
  | true =>
    rw [hw] at h
    simp at h
    cases hl : (r.lookup kind).isSome with
    | true => rw [hl] at h; simp at h
    | false => rw [hl] at h; simp at h; exact ⟨rfl, h.symm⟩

theorem encodeParts_ok_spec (data : List (String × FieldValue)) (parts : List Part)
    (h : encodeParts data = .ok parts) :
    parts.countP isFilePart = data.countP isReaderEntry ∧
    parts.countP (fun p => !isFilePart p) = data.countP (fun kv => !isReaderEntry kv) ∧
    parts.length = data.length ∧
    ∀ p ∈ parts, filenameMatchesField p = true := by
  induction data generalizing parts with
  | nil =>
    simp only [encodeParts] at h
    cases h
    simp
  | cons kv rest ih =>
    obtain ⟨k, v⟩ := kv
    simp only [encodeParts] at h
    cases hp : partFor k v with
    | error e => rw [hp] at h; cases h
    | ok p =>
      rw [hp] at h
      cases hr : encodeParts rest with
      | error e => rw [hr] at h; cases h
      | ok ps =>
        rw [hr] at h
        cases h
        obtain ⟨ih1, ih2, ih3, ih4⟩ := ih ps hr
        cases v with
        | reader content =>
          simp only [partFor] at hp
          cases hp
          refine ⟨?_, ?_, ?_, ?_⟩
          · rw [List.countP_cons, List.countP_cons, ih1]; simp [isFilePart, isReaderEntry]
          · rw [List.countP_cons, List.countP_cons, ih2]; simp [isFilePart, isReaderEntry]
          · simp [ih3]
          · intro q hq
            rcases List.mem_cons.mp hq with hq | hq
            · rw [hq]; simp [filenameMatchesField]
            · exact ih4 q hq
        | str s =>
          simp only [partFor] at hp
          cases hp
          refine ⟨?_, ?_, ?_, ?_⟩
          · rw [List.countP_cons, List.countP_cons, ih1]; simp [isFilePart, isReaderEntry]
          · rw [List.countP_cons, List.countP_cons, ih2]; simp [isFilePart, isReaderEntry]
          · simp [ih3]
          · intro q hq
            rcases List.mem_cons.mp hq with hq | hq
            · rw [hq]; simp [filenameMatchesField]
            · exact ih4 q hq
        | other mj =>
          cases mj with
          | none => simp [partFor] at hp
          | some js =>
            simp only [partFor] at hp
            cases hp
            refine ⟨?_, ?_, ?_, ?_⟩
            · rw [List.countP_cons, List.countP_cons, ih1]; simp [isFilePart, isReaderEntry]
            · rw [List.countP_cons, List.countP_cons, ih2]; simp [isFilePart, isReaderEntry]
            · simp [ih3]
            · intro q hq
              rcases List.mem_cons.mp hq with hq | hq
              · rw [hq]; simp [filenameMatchesField]
              · exact ih4 q hq

theorem processUpdates_ok_head_id (iter : Registry) (c c2 : Connection) (u : Envelope)
    (rest tr : List Envelope) (h : processUpdates iter c (u :: rest) = (c2, .ok (), tr)) :
    ∃ n, updId u = some n := by
  simp only [processUpdates] at h
  split at h
  next => simp at h
  next n hn => exact ⟨n, hn⟩

theorem processUpdates_ok_trace (iter : Registry) (c c2 : Connection)
    (batch tr : List Envelope) (h : processUpdates iter c batch = (c2, .ok (), tr)) :
    tr = batch := by
  induction batch generalizing c tr with
  | nil =>
    simp only [processUpdates] at h
    injection h with h1 h2
    injection h2 with h2 h3
    exact h3.symm
  | cons u rest ih =>
    simp only [processUpdates] at h
    split at h
    next => simp at h
    next n hn =>
      split at h
      next e he => simp at h
      next v hok =>
        injection h with h1 h2
        injection h2 with h2 h3
        have hpu : processUpdates iter { c with offset := n + 1 } rest
            = (c2, Except.ok (),
               (processUpdates iter { c with offset := n + 1 } rest).2.2) := by
          rw [← h1, ← h2]
        rw [← h3, ih _ _ hpu]

theorem processUpdates_append (iter : Registry) (c cp : Connection)
    (pre rest trp : List Envelope) (h : processUpdates iter c pre = (cp, .ok (), trp)) :
    processUpdates iter c (pre ++ rest) =
      ((processUpdates iter cp rest).1, (processUpdates iter cp rest).2.1,
        trp ++ (processUpdates iter cp rest).2.2) := by
  induction pre generalizing c trp with
  | nil =>
    simp only [processUpdates] at h
    injection h with h1 h2
    injection h2 with h2 h3
    subst h1
    rw [← h3]
    simp
  | cons u pre ih =>
    simp only [processUpdates] at h
    split at h
    next => simp at h
    next n hn =>
      split at h
      next e he => simp at h
      next v hok =>
        injection h with h1 h2
        injection h2 with h2 h3
        have hpre : processUpdates iter { c with offset := n + 1 } pre
            = (cp, Except.ok (),
               (processUpdates iter { c with offset := n + 1 } pre).2.2) := by
          rw [← h1, ← h2]
        simp only [List.cons_append, processUpdates, hn, hok, List.append_eq]
        rw [ih _ _ hpre, ← h3]
        simp

theorem processUpdates_user (iter : Registry) (c : Connection) (batch : List Envelope) :
    (processUpdates iter c batch).1.user = c.user := by
  induction batch generalizing c with
  | nil => simp [processUpdates]
  | cons u rest ih =>
    simp only [processUpdates]
    split
    next => simp
    next n hn =>
      split
      next e he => simp
      next v hok => simpa using ih { c with offset := n + 1 }

theorem processUpdates_ok_offset (iter : Registry) (c c2 : Connection)
    (batch tr : List Envelope) (m : Int)
    (h : processUpdates iter c batch = (c2, .ok (), tr))
    (hpw : (batchIds batch).Pairwise (fun a b => a < b))
    (hmem : m ∈ batchIds batch)
    (hmax : ∀ x ∈ batchIds batch, x ≤ m) :
    c2.offset = m + 1 := by
  induction batch generalizing c tr with
  | nil => simp [batchIds] at hmem
  | cons u rest ih =>
    simp only [processUpdates] at h
    split at h
    next => simp at h
    next n hn =>
      have hids : batchIds (u :: rest) = n :: batchIds rest := by
        simp [batchIds, hn]
      rw [hids] at hpw hmem hmax
      rw [List.pairwise_cons] at hpw
      obtain ⟨hlt, hpw2⟩ := hpw
      split at h
      next e he => simp at h
      next v hok =>
        injection h with h1 h2
        injection h2 with h2 h3
        have hpu : processUpdates iter { c with offset := n + 1 } rest
            = (c2, Except.ok (),
               (processUpdates iter { c with offset := n + 1 } rest).2.2) := by
          rw [← h1, ← h2]
        cases hri : batchIds rest with
        | nil =>
          cases rest with
          | nil =>
            have hoff : c2.offset = n + 1 := by
              rw [← h1]
              simp [processUpdates]
            have hmn : m = n := by
              rw [hri] at hmem
              simpa using hmem
            rw [hoff, hmn]
          | cons v2 l =>
            exfalso
            obtain ⟨k, hk⟩ := processUpdates_ok_head_id iter _ _ v2 l _ hpu
            simp [batchIds, hk] at hri
        | cons k ids2 =>
          have hkmem : k ∈ batchIds rest := by rw [hri]; exact List.mem_cons_self k ids2
          rcases List.mem_cons.mp hmem with hmn | hmrest
          · exfalso
            have hl1 := hlt k hkmem
            have hl2 := hmax k (List.mem_cons_of_mem _ hkmem)
            omega
          · exact ih _ _ hpu hpw2 hmrest (fun x hx => hmax x (List.mem_cons_of_mem _ hx))

theorem processUpdates_mono (iter : Registry) (c : Connection) (batch : List Envelope)
    (hall : ∀ u ∈ batch, ∃ n, updId u = some n ∧ c.offset ≤ n)
    (hpw : (batchIds batch).Pairwise (fun a b => a < b)) :
    c.offset ≤ (processUpdates iter c batch).1.offset := by
  induction batch generalizing c with
  | nil => simp [processUpdates]
  | cons u rest ih =>
    obtain ⟨n, hn, hle⟩ := hall u (List.mem_cons_self u rest)
    have hids : batchIds (u :: rest) = n :: batchIds rest := by
      simp [batchIds, hn]
    rw [hids, List.pairwise_cons] at hpw
    obtain ⟨hlt, hpw2⟩ := hpw
    simp only [processUpdates, hn]
    split
    next e he => simp; omega
    next v hok =>
      have hrest : ∀ v2 ∈ rest, ∃ k, updId v2 = some k ∧
          ({ c with offset := n + 1 } : Connection).offset ≤ k := by
        intro v2 hv2
        obtain ⟨k, hk, hk2⟩ := hall v2 (List.mem_cons_of_mem _ hv2)
        refine ⟨k, hk, ?_⟩
        have hkmem : k ∈ batchIds rest := by
          simp only [batchIds, List.mem_filterMap]
          exact ⟨v2, hv2, hk⟩
        have := hlt k hkmem
        simp
        omega
      have hm := ih { c with offset := n + 1 } hrest hpw2
      simp at hm ⊢
      omega

theorem handleUpdates_mono (iter : Registry)
    (fetch : Int → Int → Except CallError (List Envelope)) (c : Connection)
    (hv : ServerValid fetch) :
    c.offset ≤ (handleUpdates iter fetch c).1.offset := by
  simp only [handleUpdates]
  split
  next e he => simp
  next batch hb =>
    obtain ⟨hall, hpw⟩ := hv c.offset c.timeout batch hb
    exact processUpdates_mono iter c batch hall hpw

theorem handleUpdates_user (iter : Registry)
    (fetch : Int → Int → Except CallError (List Envelope)) (c : Connection) :
    (handleUpdates iter fetch c).1.user = c.user := by
  simp only [handleUpdates]
  split
  next e he => simp
  next batch hb => exact processUpdates_user iter c batch

theorem pollLoop_mono (iter : Registry)
    (fetch : Int → Int → Except CallError (List Envelope)) (hv : ServerValid fetch)
    (fuel : Nat) (c : Connection) :
    c.offset ≤ (pollLoop iter fetch fuel c).1.offset := by
  induction fuel generalizing c with
  | zero => simp [pollLoop]
  | succ fuel ih =>
    simp only [pollLoop]
    split
    · simp
    · have h1 := handleUpdates_mono iter fetch c hv
      split
      next c1 e tr heq => rw [heq] at h1; simpa using h1
      next c1 v tr heq =>
        rw [heq] at h1
        simp at h1
        have h2 := ih c1
        simp
        omega

theorem pollLoop_user (iter : Registry)
    (fetch : Int → Int → Except CallError (List Envelope)) (fuel : Nat) (c : Connection) :
    (pollLoop iter fetch fuel c).1.user = c.user := by
  induction fuel generalizing c with
  | zero => simp [pollLoop]
  | succ fuel ih =>
    simp only [pollLoop]
    split
    · simp
    · have h1 := handleUpdates_user iter fetch c
      split
      next c1 e tr heq => rw [heq] at h1; simpa using h1
      next c1 v tr heq =>
        rw [heq] at h1
        simp at h1
        have h2 := ih c1
        simp
        rw [h2, h1]

theorem pollLoop_ops (iter : Registry)
    (fetch : Int → Int → Except CallError (List Envelope)) (fuel : Nat) (c : Connection) :
    ∀ op ∈ (pollLoop iter fetch fuel c).2.2, op = "getUpdates" := by
  induction fuel generalizing c with
  | zero => simp [pollLoop]
  | succ fuel ih =>
    simp only [pollLoop]
    split
    · simp
    · split
      next c1 e tr heq => simp
      next c1 v tr heq =>
        have h2 := ih c1
        intro op hop
        simp at hop
        rcases hop with hop | hop
        · exact hop
        · exact h2 op hop

/-! Claim C3. -/

def msgHandlerC3 : HandlerFunc := ⟨1, 1, true, fun _ => .ok⟩

def editHandlerC3 : HandlerFunc := ⟨1, 1, true, fun _ => .ok⟩

def reg1C3 : Registry := [("message", msgHandlerC3)]

def reg2C3 : Registry := [("message", msgHandlerC3), ("edited_message", editHandlerC3)]

def iterC3 : Registry := [("edited_message", editHandlerC3), ("message", msgHandlerC3)]

def envC3 : Envelope := [("update_id", "1"), ("message", "m"), ("edited_message", "e")]

/-- Claim C3, counterexample: with "message" registered before
"edited_message", an envelope containing both fragments, and the legal
(unspecified-order) map iteration sequence that visits "edited_message"
first, the invoked handler is the "edited_message" one, not the
first-registered "message" one. -/
theorem c3_counterexample :
    Handle [] "message" msgHandlerC3 = .ok reg1C3
    ∧ Handle reg1C3 "edited_message" editHandlerC3 = .ok reg2C3
    ∧ iterC3.Perm reg2C3
    ∧ (envC3.lookup "message").isSome = true
    ∧ (handleUpdate iterC3 envC3).2 = ["edited_message"] := by
  refine ⟨rfl, rfl, ?_, rfl, rfl⟩
  exact List.Perm.swap ("message", msgHandlerC3) ("edited_message", editHandlerC3) []

/-- Claim C3 (amended): at most one handler is invoked per envelope; an
kind of an invoked handler is the first kind present in the envelope in the
order the handler map is iterated (Go map iteration order is unspecified,
not necessarily registration order); and for an envelope containing a
registered "message" kind plus an unregistered "photo" kind, exactly the
"message" handler fires. -/
theorem c3_single_handler (iter : Registry) (u : Envelope) (h : HandlerFunc) :
    (handleUpdate iter u).2.length ≤ 1
    ∧ (∀ k, k ∈ (handleUpdate iter u).2 → firstPresent iter u = some k)
    ∧ ((∀ msg, h.behavior "mfrag" ≠ .decodeFail msg) →
        (handleUpdate [("message", h)]
          [("update_id", "1"), ("message", "mfrag"), ("photo", "p")]).2 = ["message"]) := by
  refine ⟨handleUpdate_fired_len iter u, handleUpdate_fired iter u, ?_⟩
  intro hnd
  cases hb : h.behavior "mfrag" with
  | decodeFail msg => exact absurd hb (hnd msg)
  | handlerErr msg => simp [handleUpdate, List.lookup, hb]
  | ok => simp [handleUpdate, List.lookup, hb]

theorem c3_single_handler_witness :
    (handleUpdate [("message", msgHandlerC3)] [("update_id", "1"), ("message", "mfrag")]).2.length ≤ 1
    ∧ firstPresent [("message", msgHandlerC3)] [("update_id", "1"), ("message", "mfrag")]
        = some "message"
    ∧ (handleUpdate [("message", msgHandlerC3)]
        [("update_id", "1"), ("message", "mfrag"), ("photo", "p")]).2 = ["message"] := by
  obtain ⟨h1, h2, h3⟩ := c3_single_handler [("message", msgHandlerC3)]
      [("update_id", "1"), ("message", "mfrag")] msgHandlerC3
  refine ⟨h1, h2 "message" (by decide), h3 ?_⟩
  exact fun msg hmsg => HandlerResult.noConfusion hmsg

/-! Claim C4. -/

theorem handleUpdate_none (iter : Registry) (u : Envelope)
    (hnone : (iter.all fun kh => (u.lookup kh.1).isNone) = true) :
    handleUpdate iter u = (.ok (), []) := by
  induction iter with
  | nil => simp [handleUpdate]
  | cons kh rest ih =>
    obtain ⟨kind, hh⟩ := kh
    simp only [List.all_cons, Bool.and_eq_true] at hnone
    obtain ⟨h1, h2⟩ := hnone
    simp only [handleUpdate]
    split
    next hl => exact ih h2
    next frag hl => rw [hl] at h1; simp at h1

/-- Claim C4: when no registered kind is present in an envelope, dispatch
returns success with no handler invoked, the envelope is dropped, and the
batch loop continues with only the cursor changed; an unhandled kind never
terminates the update loop. -/
theorem c4_unhandled (iter : Registry) (u : Envelope) (c : Connection)
    (rest : List Envelope) (n : Int)
    (hnone : (iter.all fun kh => (u.lookup kh.1).isNone) = true) :
    handleUpdate iter u = (.ok (), [])
    ∧ (updId u = some n →
        processUpdates iter c (u :: rest)
          = ((processUpdates iter { c with offset := n + 1 } rest).1,
             (processUpdates iter { c with offset := n + 1 } rest).2.1,
             u :: (processUpdates iter { c with offset := n + 1 } rest).2.2)) := by
  have hdu := handleUpdate_none iter u hnone
  refine ⟨hdu, ?_⟩
  intro hn
  simp only [processUpdates, hn, hdu]

def msgHandlerC4 : HandlerFunc := ⟨1, 1, true, fun _ => .ok⟩

def connC4 : Connection := ⟨"t", 10, false, ⟨1, "B", "", true⟩, 0, false⟩

theorem c4_unhandled_witness :
    handleUpdate [("message", msgHandlerC4)] [("update_id", "7"), ("photo", "p")] = (.ok (), [])
    ∧ processUpdates [("message", msgHandlerC4)] connC4 [[("update_id", "7"), ("photo", "p")]]
        = ({ connC4 with offset := 8 }, .ok (), [[("update_id", "7"), ("photo", "p")]]) := by
  obtain ⟨h1, h2⟩ := c4_unhandled [("message", msgHandlerC4)]
      [("update_id", "7"), ("photo", "p")] connC4 [] 7 rfl
  refine ⟨h1, ?_⟩
  exact (h2 rfl).trans rfl

/-! Claim C6. -/

/-- Claim C6: encoding a request with zero fields yields the empty JSON
body with content-type application/json; otherwise the body is multipart in
which each byte-stream field becomes a file part whose filename equals the
field name, each string field becomes a text part, every other field
becomes a JSON-marshaled text part, and in particular one byte-stream field
plus one string field yield exactly one file part and one text part. -/
theorem c6_encoding (data : List (String × FieldValue)) (parts : List Part)
    (k1 co k2 s : String) :
    (encodeMultipartBody [] = .ok .emptyJSON ∧ bodyContentType .emptyJSON = "application/json")
    ∧ (encodeMultipartBody data = .ok (.multipart parts) →
        parts.countP isFilePart = data.countP isReaderEntry
        ∧ parts.countP (fun p => !isFilePart p) = data.countP (fun kv => !isReaderEntry kv)
        ∧ parts.length = data.length
        ∧ ∀ p ∈ parts, filenameMatchesField p = true)
    ∧ encodeMultipartBody [(k1, .reader co), (k2, .str s)]
        = .ok (.multipart [.file k1 k1 co, .field k2 s]) := by
  refine ⟨⟨rfl, rfl⟩, ?_, rfl⟩
  intro h
  simp only [encodeMultipartBody] at h
  split at h
  next hemp => simp at h
  next hemp =>
    split at h
    next e he => simp at h
    next ps hps =>
      injection h with h2
      injection h2 with h3
      rw [← h3]
      exact encodeParts_ok_spec data ps hps

theorem c6_encoding_witness :
    List.countP isFilePart [Part.file "doc" "doc" "DATA", Part.field "caption" "hi"]
      = List.countP isReaderEntry
          [("doc", FieldValue.reader "DATA"), ("caption", FieldValue.str "hi")]
    ∧ List.countP isFilePart [Part.file "doc" "doc" "DATA", Part.field "caption" "hi"] = 1
    ∧ List.countP (fun p => !isFilePart p)
        [Part.file "doc" "doc" "DATA", Part.field "caption" "hi"] = 1 := by
  have h := (c6_encoding [("doc", FieldValue.reader "DATA"), ("caption", FieldValue.str "hi")]
      [Part.file "doc" "doc" "DATA", Part.field "caption" "hi"] "x" "y" "z" "w").2.1 rfl
  exact ⟨h.1, by decide, by decide⟩

/-! Claim C7. -/

/-- Claim C7: registering a handler for an already-registered kind fails
with a ConfigurationError (so the previously registered handler stays in
place), a handler whose shape is not a single-input function returning a
single error fails at registration time, and every handler of a registry
built by successful registrations is well shaped, so dispatch never
encounters a malformed handler. -/
theorem c7_registration (r : Registry) (kind : String) (f g : HandlerFunc) :
    (r.lookup kind = some g → ∃ e, Handle r kind f = .error e)
    ∧ (wellShaped f = false → Handle r kind f = .error .badShape)
    ∧ (Reachable r → ∀ kh ∈ r, wellShaped kh.2 = true) := by
  refine ⟨?_, ?_, ?_⟩
  · intro hdup
    cases hw : wellShaped f with
    | false => exact ⟨.badShape, by simp [Handle, hw]⟩
    | true => exact ⟨.duplicate kind, by simp [Handle, hw, hdup]⟩
  · intro hw
    simp [Handle, hw]
  · intro hr
    induction hr with
    | base => simp
    | step hr2 hok ih =>
      obtain ⟨hws, hr2b⟩ := Handle_ok_inv _ _ _ _ hok
      subst hr2b
      intro kh hkh
      rcases List.mem_append.mp hkh with hm | hm
      · exact ih kh hm
      · simp at hm
        rw [hm]
        exact hws

def fShapedC7 : HandlerFunc := ⟨1, 1, true, fun _ => .ok⟩

def fBadC7 : HandlerFunc := ⟨2, 1, true, fun _ => .ok⟩

def regC7 : Registry := [("message", fShapedC7)]

theorem c7_registration_witness :
    (∃ e, Handle regC7 "message" fShapedC7 = .error e)
    ∧ Handle regC7 "callback" fBadC7 = .error .badShape
    ∧ ∀ kh ∈ regC7, wellShaped kh.2 = true := by
  obtain ⟨h1, h2, h3⟩ := c7_registration regC7 "message" fShapedC7 fShapedC7
  refine ⟨h1 rfl, ?_, ?_⟩
  · exact (c7_registration regC7 "callback" fBadC7 fShapedC7).2.1 rfl
  · exact h3 (Reachable.step Reachable.base
      (show Handle [] "message" fShapedC7 = .ok regC7 from rfl))

/-! Claim C5. -/

/-- Claim C5: when the remote response envelope has ok = false, Call fails
with an APIError carrying the remote description, the remote error code,
the operation name and a pretty-printed echo of the outgoing request value,
and Send fails with the same APIError for its operation. -/
theorem c5_api_error (method : String) (data : Option GoConcrete)
    (m : List (String × FieldValue)) (body : Body) (res desc : String) (code : Int)
    (dec : Option (String → Option Unit))
    (h1 : toMap data = .ok m) (h2 : encodeMultipartBody m = .ok body) :
    (Call method data (.envelope ⟨false, res, code, desc⟩) dec).result
      = .error (.api desc code method (prettyPrintJSON data))
    ∧ Send data (.envelope ⟨false, res, code, desc⟩)
      = .error (.api desc code "sendMessage" (prettyPrintJSON data)) := by
  have hc : ∀ (meth : String) (ρ : Type) (d : Option (String → Option ρ)),
      (Call meth data (.envelope ⟨false, res, code, desc⟩) d).result
        = .error (.api desc code meth (prettyPrintJSON data)) := by
    intro meth ρ d
    simp [Call, h1, h2]
  refine ⟨hc method Unit dec, ?_⟩
  simp only [Send, hc "sendMessage" Unit none]

theorem c5_api_error_witness :
    (Call "sendMessage" none (.envelope ⟨false, "x", 400, "bad request"⟩)
        (none : Option (String → Option Unit))).result
      = .error (.api "bad request" 400 "sendMessage" "null\n")
    ∧ Send none (.envelope ⟨false, "x", 400, "bad request"⟩)
      = .error (.api "bad request" 400 "sendMessage" "null\n") := by
  have h := c5_api_error "sendMessage" none [] .emptyJSON "x" "bad request" 400
      (none : Option (String → Option Unit)) rfl rfl
  exact ⟨h.1, h.2⟩

/-! Claim C10. -/

/-- Claim C10, counterexample: a pointer-to-map request value is non-nil
and its kind is neither struct, pointer-to-struct, nor map, yet toMap
accepts it, Call reaches the HTTP round trip and, with an ok response,
Send succeeds, instead of failing beforehand as the claim states. -/
theorem c10_counterexample :
    toMap (some (GoConcrete.ptrV (some (.mapV [("a", FieldValue.str "b")]))))
      = .ok [("a", FieldValue.str "b")]
    ∧ (Call "m" (some (GoConcrete.ptrV (some (.mapV [("a", FieldValue.str "b")]))))
        (.envelope ⟨true, "", 0, ""⟩) (none : Option (String → Option Unit))).httpSent = true
    ∧ Send (some (GoConcrete.ptrV (some (.mapV [("a", FieldValue.str "b")]))))
        (.envelope ⟨true, "", 0, ""⟩) = .ok () := by
  exact ⟨rfl, rfl, rfl⟩

/-- Claim C10 (amended): every non-nil request value whose kind after
stripping one level of pointer indirection is neither struct nor map (that
is: any scalar kind, a nil pointer, a pointer to a scalar, or a pointer to
a pointer) makes Call and Send fail before the HTTP round trip is reached;
nil, struct, map, pointer-to-struct and pointer-to-map values reach the
encoder. -/
theorem c10_kind_rejected (cv : GoConcrete) (method : String) (remote : RemoteBehavior)
    (dec : Option (String → Option Unit)) (h : rejectedKind cv) :
    (∃ msg, (Call method (some cv) remote dec).result = .error (.invalidData msg))
    ∧ (Call method (some cv) remote dec).httpSent = false
    ∧ (∃ msg, Send (some cv) remote = .error (.invalidData msg)) := by
  have htm : ∃ msg, toMap (some cv) = .error msg := by
    cases cv with
    | scalar k => exact ⟨_, rfl⟩
    | structV fields => simp [rejectedKind] at h
    | mapV entries => simp [rejectedKind] at h
    | ptrV p =>
      cases p with
      | none => exact ⟨_, rfl⟩
      | some q =>
        cases q with
        | scalar k => exact ⟨_, rfl⟩
        | structV fields => simp [rejectedKind] at h
        | mapV entries => simp [rejectedKind] at h
        | ptrV p2 => exact ⟨_, rfl⟩
  obtain ⟨msg, hmsg⟩ := htm
  refine ⟨⟨msg, ?_⟩, ?_, ⟨msg, ?_⟩⟩
  · simp [Call, hmsg]
  · simp [Call, hmsg]
  · simp [Send, Call, hmsg]

theorem c10_kind_rejected_witness :
    (∃ msg, (Call "sendMessage" (some (GoConcrete.scalar "int"))
        (.envelope ⟨true, "", 0, ""⟩)
        (none : Option (String → Option Unit))).result = .error (.invalidData msg))
    ∧ (Call "sendMessage" (some (GoConcrete.scalar "int")) (.envelope ⟨true, "", 0, ""⟩)
        (none : Option (String → Option Unit))).httpSent = false := by
  obtain ⟨h1, h2, h3⟩ := c10_kind_rejected (GoConcrete.scalar "int") "sendMessage"
      (.envelope ⟨true, "", 0, ""⟩) none trivial
  exact ⟨h1, h2⟩

/-! Claim C1. -/

/-- Claim C1: a batch fully processed without a dispatch error leaves the
cursor at (maximum delivery identifier in the batch) + 1, and across a
whole run against a remote obeying the delivery-identifier protocol
(identifiers parse, are strictly increasing within a batch, and are at
least the requested offset) the cursor never decreases. -/
theorem c1_cursor (iter : Registry) (c c2 : Connection) (batch tr : List Envelope)
    (m : Int) (fetch : Int → Int → Except CallError (List Envelope)) (fuel : Nat) :
    (processUpdates iter c batch = (c2, .ok (), tr) →
      (batchIds batch).Pairwise (fun a b => a < b) →
      m ∈ batchIds batch →
      (∀ x ∈ batchIds batch, x ≤ m) →
      c2.offset = m + 1)
    ∧ (ServerValid fetch → c.offset ≤ (pollLoop iter fetch fuel c).1.offset) := by
  refine ⟨?_, ?_⟩
  · intro h hpw hmem hmax
    exact processUpdates_ok_offset iter c c2 batch tr m h hpw hmem hmax
  · intro hv
    exact pollLoop_mono iter fetch hv fuel c

def connC1 : Connection := ⟨"t", 10, false, ⟨1, "B", "", true⟩, 0, false⟩

def batchC1 : List Envelope := [[("update_id", "3")], [("update_id", "4"), ("photo", "p")]]

theorem c1_cursor_witness :
    (processUpdates [] connC1 batchC1).1.offset = 4 + 1
    ∧ connC1.offset ≤ (pollLoop [] (fun _ _ => .ok []) 3 connC1).1.offset := by
  have h := c1_cursor [] connC1 (processUpdates [] connC1 batchC1).1 batchC1
      (processUpdates [] connC1 batchC1).2.2 4 (fun _ _ => .ok []) 3
  refine ⟨h.1 rfl (by decide) (by decide) (by decide), h.2 ?_⟩
  intro o t batch2 hb
  have hb2 : ([] : List Envelope) = batch2 := by injection hb
  rw [← hb2]
  exact ⟨by simp, List.Pairwise.nil⟩

/-! Claim C2. -/

/-- Claim C2: envelopes of a batch are processed in the order received; the
cursor is advanced to (update identifier + 1) before dispatch is attempted;
a dispatch failure stops the batch loop with that error while the cursor
keeps the advancement already made for the failing envelope and all earlier
envelopes (no rollback). -/
theorem c2_dispatch_failure (iter : Registry) (c cp : Connection)
    (pre rest trp : List Envelope) (u : Envelope) (n : Int) (e : Err)
    (hpre : processUpdates iter c pre = (cp, .ok (), trp))
    (hn : updId u = some n)
    (he : (handleUpdate iter u).1 = .error e) :
    processUpdates iter c (pre ++ u :: rest)
      = ({ cp with offset := n + 1 }, .error e, pre ++ [u])
    ∧ trp = pre := by
  have htr : trp = pre := processUpdates_ok_trace iter c cp pre trp hpre
  refine ⟨?_, htr⟩
  rw [processUpdates_append iter c cp pre (u :: rest) trp hpre]
  simp only [processUpdates, hn, he]
  rw [htr]

def failHandlerC2 : HandlerFunc := ⟨1, 1, true, fun _ => .handlerErr "boom"⟩

def iterC2 : Registry := [("message", failHandlerC2)]

def connC2 : Connection := ⟨"t", 10, false, ⟨1, "B", "", true⟩, 0, false⟩

def preC2 : List Envelope := [[("update_id", "1")]]

def uC2 : Envelope := [("update_id", "2"), ("message", "m")]

theorem c2_dispatch_failure_witness :
    processUpdates iterC2 connC2 (preC2 ++ uC2 :: [])
      = ({ connC2 with offset := 3 }, .error (.handlerFail "message" "boom"), preC2 ++ [uC2])
    ∧ preC2 = preC2 := by
  have h := c2_dispatch_failure iterC2 connC2 { connC2 with offset := 2 } preC2 []
      preC2 uC2 2 (.handlerFail "message" "boom") rfl rfl rfl
  exact ⟨h.1.trans rfl, h.2⟩

/-! Claim C9. -/

/-- Claim C9: an envelope whose update_id fragment does not parse as an
integer makes the batch processing return an error, terminating the whole
update loop rather than being skipped, while envelopes earlier in the batch
keep their cursor advancement. -/
theorem c9_malformed_id (iter : Registry)
    (fetch : Int → Int → Except CallError (List Envelope)) (c cp : Connection)
    (pre rest trp : List Envelope) (u : Envelope) (fuel : Nat)
    (hpre : processUpdates iter c pre = (cp, .ok (), trp))
    (hn : updId u = none) :
    processUpdates iter c (pre ++ u :: rest)
      = (cp, .error (.badUpdateId ((u.lookup "update_id").getD "")), trp)
    ∧ (c.stopped = false →
        fetch c.offset c.timeout = .ok (pre ++ u :: rest) →
        pollLoop iter fetch (fuel + 1) c
          = (cp, .error (.badUpdateId ((u.lookup "update_id").getD "")), ["getUpdates"])) := by
  have hmain : processUpdates iter c (pre ++ u :: rest)
      = (cp, .error (.badUpdateId ((u.lookup "update_id").getD "")), trp) := by
    rw [processUpdates_append iter c cp pre (u :: rest) trp hpre]
    simp only [processUpdates, hn]
    simp
  refine ⟨hmain, ?_⟩
  intro hstop hfetch
  simp only [pollLoop, hstop, handleUpdates, hfetch, hmain]
  simp

def connC9 : Connection := ⟨"t", 10, false, ⟨1, "B", "", true⟩, 0, false⟩

def preC9 : List Envelope := [[("update_id", "5")]]

def uC9 : Envelope := [("update_id", "x5"), ("message", "m")]

theorem c9_malformed_id_witness :
    processUpdates [] connC9 (preC9 ++ uC9 :: [])
      = ({ connC9 with offset := 6 }, .error (.badUpdateId "x5"), preC9)
    ∧ pollLoop [] (fun _ _ => .ok (preC9 ++ uC9 :: [])) 1 connC9
      = ({ connC9 with offset := 6 }, .error (.badUpdateId "x5"), ["getUpdates"]) := by
  have h := c9_malformed_id [] (fun _ _ => .ok (preC9 ++ uC9 :: [])) connC9
      { connC9 with offset := 6 } preC9 [] preC9 uC9 0 rfl rfl
  exact ⟨h.1.trans rfl, (h.2 rfl rfl).trans rfl⟩

/-! Claim C8. -/

/-- Claim C8: Start issues exactly one identity-fetch (getMe) call before
any polling; if it fails, Start returns that error, no fetch-updates call
is ever issued, and the stored identity is unchanged; if it succeeds, the
stored identity equals the decoded user before the first poll and is never
modified afterwards. -/
theorem c8_identity (iter : Registry) (remote : RemoteBehavior)
    (decodeUser : String → Option User)
    (fetch : Int → Int → Except CallError (List Envelope)) (fuel : Nat)
    (c : Connection) (e : CallError) (u : User) :
    ((Call "getMe" none remote (some decodeUser)).result = .error e →
      (start iter remote decodeUser fetch fuel c).2.2 = ["getMe"]
      ∧ (start iter remote decodeUser fetch fuel c).1.user = c.user
      ∧ (start iter remote decodeUser fetch fuel c).2.1 = .error (.fetch e))
    ∧ ((Call "getMe" none remote (some decodeUser)).result = .ok (some u) →
      (start iter remote decodeUser fetch fuel c).1.user = u
      ∧ ∃ ops, (start iter remote decodeUser fetch fuel c).2.2 = "getMe" :: ops
          ∧ ∀ op ∈ ops, op = "getUpdates") := by
  constructor
  · intro he
    refine ⟨?_, ?_, ?_⟩
    · simp only [start, he]
    · simp only [start, he]
      split <;> simp
    · simp only [start, he]
  · intro hok
    have hshape : ∃ c1 : Connection, c1.user = u ∧ start iter remote decodeUser fetch fuel c
        = ((pollLoop iter fetch fuel c1).1, (pollLoop iter fetch fuel c1).2.1,
           "getMe" :: (pollLoop iter fetch fuel c1).2.2) := by
      refine ⟨{ (if c.timeout == 0 then { c with timeout := defaultTimeoutSeconds } else c) with
          user := u }, rfl, ?_⟩
      simp only [start, hok]
    obtain ⟨c1, hc1, hs⟩ := hshape
    rw [hs]
    refine ⟨?_, (pollLoop iter fetch fuel c1).2.2, rfl, pollLoop_ops iter fetch fuel c1⟩
    show (pollLoop iter fetch fuel c1).1.user = u
    rw [pollLoop_user]
    exact hc1

def remoteC8 : RemoteBehavior := .envelope ⟨true, "USER", 0, ""⟩

def remoteC8bad : RemoteBehavior := .transportFail "no route"

def decodeUserC8 : String → Option User :=
  fun s => if s == "USER" then some ⟨7, "Bot", "", true⟩ else none

def connC8 : Connection := ⟨"t", 10, false, ⟨0, "", "", false⟩, 0, false⟩

theorem c8_identity_witness :
    ((start [] remoteC8bad decodeUserC8 (fun _ _ => .ok []) 2 connC8).2.2 = ["getMe"]
      ∧ (start [] remoteC8bad decodeUserC8 (fun _ _ => .ok []) 2 connC8).1.user = connC8.user)
    ∧ (start [] remoteC8 decodeUserC8 (fun _ _ => .ok []) 0 connC8).1.user
        = ⟨7, "Bot", "", true⟩ := by
  have h1 := (c8_identity [] remoteC8bad decodeUserC8 (fun _ _ => .ok []) 2 connC8
      (.transport "no route") ⟨7, "Bot", "", true⟩).1 rfl
  have h2 := (c8_identity [] remoteC8 decodeUserC8 (fun _ _ => .ok []) 0 connC8
      (.transport "no route") ⟨7, "Bot", "", true⟩).2 rfl
  exact ⟨⟨h1.1, h1.2.1⟩, h2.1⟩

end Telegram
